import Mathlib

/-!
# Verification of the Gas Town supervisor subsystem

Shallow embedding of the components of `steveyegge/gastown` that the
specification's claims are about, together with proofs settling each claim:

* the queue-metadata codec (`internal/cmd/queue_metadata.go`),
* the restart tracker (`internal/daemon/restart_tracker.go`),
* the maintenance-window check (`internal/daemon`, `parseWindowTime` /
  `isInMaintenanceWindow`),
* the polecat session heartbeat store (`internal/polecat`),
* the PID-file ownership check (`internal/refinery` / `internal/daemon`),
* the dispatch ("sling") lock discipline, parked/docked rig guard and
  auto-convoy creation (`internal/cmd`).

Go strings are modelled as `List Char`; Go `time.Time` / `time.Duration`
values as `Int` nanosecond counts (with the Go zero `time.Time` modelled as
`0`, which is sound because every wall-clock instant the daemon can observe
is strictly after Go's zero time); Go maps keyed by strings as association
lists; filesystem and subprocess effects as explicit state or oracle
parameters.
-/

namespace Gastown

/-! ## Go string primitives over `List Char`

Faithful models of the `strings` package functions the embedded code uses:
`strings.Split` on a single-character separator, `strings.TrimSpace`,
`strings.TrimRight(s, "\n")`, `strings.Index`, `strings.SplitN(s, sep, 2)`,
`strings.Join(lines, "\n")` and `strings.Contains`. -/

/-- The character set of Go's `unicode.IsSpace` (the `White_Space` property). -/
def isGoSpace (c : Char) : Bool :=
  c = ' ' || c = '\t' || c = '\n' || (c.toNat = 11) || (c.toNat = 12) ||
  c = '\r' || (c.toNat = 0x85) || (c.toNat = 0xA0) || (c.toNat = 0x1680) ||
  (0x2000 ≤ c.toNat && c.toNat ≤ 0x200A) || (c.toNat = 0x2028) ||
  (c.toNat = 0x2029) || (c.toNat = 0x202F) || (c.toNat = 0x205F) ||
  (c.toNat = 0x3000)

/-- Go `strings.TrimLeft(s, whitespace)` as used by `TrimSpace`. -/
def trimLeftSpace : List Char → List Char
  | [] => []
  | c :: cs => if isGoSpace c then trimLeftSpace cs else c :: cs

/-- Trailing-whitespace trim, via reversal. -/
def trimRightSpace (l : List Char) : List Char :=
  (trimLeftSpace l.reverse).reverse

/-- Go `strings.TrimSpace`. -/
def trimSpace (l : List Char) : List Char :=
  trimLeftSpace (trimRightSpace l)

/-- Go `strings.TrimRight(s, "\n")`. -/
def trimRightNL (l : List Char) : List Char :=
  (l.reverse.dropWhile (fun c => c = '\n')).reverse

/-- Go `strings.Split(s, sep)` for a one-character separator `sep`. -/
def splitOnChar (sep : Char) : List Char → List (List Char)
  | [] => [[]]
  | c :: cs =>
    if c = sep then [] :: splitOnChar sep cs
    else
      match splitOnChar sep cs with
      | [] => [[c]]
      | l :: ls => (c :: l) :: ls

/-- Go `strings.Join(lines, sep)` for a one-character separator. -/
def joinSep (sep : Char) : List (List Char) → List Char
  | [] => []
  | l :: ls =>
    match ls with
    | [] => l
    | _ :: _ => l ++ sep :: joinSep sep ls

/-- Go `strings.Index(s, pat)`: byte index of the first occurrence of `pat`
in `s`, or `none` (Go returns `-1`) when there is none. -/
def indexOfSub (pat : List Char) : List Char → Option Nat
  | [] => if pat.isPrefixOf [] then some 0 else none
  | c :: cs =>
    if pat.isPrefixOf (c :: cs) then some 0
    else (indexOfSub pat cs).map (· + 1)

/-- Go `strings.Contains(s, pat)`. -/
def containsSub (pat s : List Char) : Bool :=
  (indexOfSub pat s).isSome

/-- Go `strings.SplitN(s, sep, 2)`: `some (before, after)` split at the first
occurrence of `sep`, `none` when `sep` does not occur (Go then returns the
one-element slice `[s]`). -/
def splitOnFirstSub (sep : List Char) : List Char → Option (List Char × List Char)
  | [] => none
  | c :: cs =>
    if sep.isPrefixOf (c :: cs) then some ([], (c :: cs).drop sep.length)
    else (splitOnFirstSub sep cs).map (fun p => (c :: p.1, p.2))

/-- `strContains s sub` : Go `strings.Contains` over Lean `String` literals,
used to state "the error message contains ..." claims. -/
def strContains (s sub : String) : Bool :=
  containsSub sub.toList s.toList

/-! ## Queue metadata codec (`internal/cmd/queue_metadata.go`)

`QueueMetadata` holds queue dispatch parameters stored in a bead's
description, delimited by the sentinel line `---queue---`. -/

/-- The sentinel `queueMetadataDelimiter = "---queue---"`. -/
def qmDelim : List Char := ("---queue---").toList

/-- The separator `": "` used by `strings.SplitN(line, ": ", 2)`. -/
def colonSpace : List Char := (": ").toList

/-- The literal `"true"` encoding a set boolean field. -/
def trueLit : List Char := ("true").toList

/-- `QueueMetadata` (queue_metadata.go): one field per Go struct field, in
source order. -/
structure QueueMetadata where
  targetRig : List Char
  formula : List Char
  args : List Char
  vars : List Char
  enqueuedAt : List Char
  merge : List Char
  convoy : List Char
  baseBranch : List Char
  noMerge : Bool
  account : List Char
  agent : List Char
  hookRawBead : Bool
  noBoot : Bool
  owned : Bool
deriving DecidableEq, Repr

/-- The Go zero value `&QueueMetadata{}`. -/
def QueueMetadata.blank : QueueMetadata :=
  ⟨[], [], [], [], [], [], [], [], false, [], [], false, false, false⟩

def kTargetRig : List Char := ("target_rig").toList
def kFormula : List Char := ("formula").toList
def kArgs : List Char := ("args").toList
def kVars : List Char := ("vars").toList
def kEnqueuedAt : List Char := ("enqueued_at").toList
def kMerge : List Char := ("merge").toList
def kConvoy : List Char := ("convoy").toList
def kBaseBranch : List Char := ("base_branch").toList
def kNoMerge : List Char := ("no_merge").toList
def kAccount : List Char := ("account").toList
def kAgent : List Char := ("agent").toList
def kHookRawBead : List Char := ("hook_raw_bead").toList
def kNoBoot : List Char := ("no_boot").toList
def kOwned : List Char := ("owned").toList

/-- A formatted `key: value` line. -/
def kvLine (key val : List Char) : List Char :=
  key ++ ':' :: ' ' :: val

/-- The `key: value` lines appended by `FormatQueueMetadata`, in source
order; empty string fields and false boolean fields are omitted. -/
def kvLines (m : QueueMetadata) : List (List Char) :=
  (if m.targetRig = [] then [] else [kvLine kTargetRig m.targetRig]) ++
  (if m.formula = [] then [] else [kvLine kFormula m.formula]) ++
  (if m.args = [] then [] else [kvLine kArgs m.args]) ++
  (if m.vars = [] then [] else [kvLine kVars m.vars]) ++
  (if m.enqueuedAt = [] then [] else [kvLine kEnqueuedAt m.enqueuedAt]) ++
  (if m.merge = [] then [] else [kvLine kMerge m.merge]) ++
  (if m.convoy = [] then [] else [kvLine kConvoy m.convoy]) ++
  (if m.baseBranch = [] then [] else [kvLine kBaseBranch m.baseBranch]) ++
  (if m.noMerge then [kvLine kNoMerge trueLit] else []) ++
  (if m.account = [] then [] else [kvLine kAccount m.account]) ++
  (if m.agent = [] then [] else [kvLine kAgent m.agent]) ++
  (if m.hookRawBead then [kvLine kHookRawBead trueLit] else []) ++
  (if m.noBoot then [kvLine kNoBoot trueLit] else []) ++
  (if m.owned then [kvLine kOwned trueLit] else [])

/-- `FormatQueueMetadata`: the delimiter line followed by the key-value
lines, joined with `"\n"`. -/
def formatQueueMetadata (m : QueueMetadata) : List Char :=
  joinSep '\n' (qmDelim :: kvLines m)

/-- The recognized-key switch of `ParseQueueMetadata`'s loop body; unknown
keys leave `m` unchanged. -/
def assignKV (key val : List Char) (m : QueueMetadata) : QueueMetadata :=
  if key = kTargetRig then { m with targetRig := val }
  else if key = kFormula then { m with formula := val }
  else if key = kArgs then { m with args := val }
  else if key = kVars then { m with vars := val }
  else if key = kEnqueuedAt then { m with enqueuedAt := val }
  else if key = kMerge then { m with merge := val }
  else if key = kConvoy then { m with convoy := val }
  else if key = kBaseBranch then { m with baseBranch := val }
  else if key = kNoMerge then { m with noMerge := val = trueLit }
  else if key = kAccount then { m with account := val }
  else if key = kAgent then { m with agent := val }
  else if key = kHookRawBead then { m with hookRawBead := val = trueLit }
  else if key = kNoBoot then { m with noBoot := val = trueLit }
  else if key = kOwned then { m with owned := val = trueLit }
  else m

/-- The line loop of `ParseQueueMetadata`: trim each line, skip empty lines,
stop at a second delimiter, skip lines without `": "`, otherwise assign
trimmed key and value. -/
def parseLines : List (List Char) → QueueMetadata → QueueMetadata
  | [], m => m
  | l :: ls, m =>
    let t := trimSpace l
    if t = [] then parseLines ls m
    else if t = qmDelim then m
    else
      match splitOnFirstSub colonSpace t with
      | none => parseLines ls m
      | some kv => parseLines ls (assignKV (trimSpace kv.1) (trimSpace kv.2) m)

/-- `ParseQueueMetadata`: locate the first sentinel (returning `none` — Go
`nil` — when absent), split the rest on newlines and run the line loop on a
zero `QueueMetadata`. -/
def parseQueueMetadata (s : List Char) : Option QueueMetadata :=
  match indexOfSub qmDelim s with
  | none => none
  | some i =>
    some (parseLines (splitOnChar '\n' (s.drop (i + qmDelim.length))) QueueMetadata.blank)

/-- `StripQueueMetadata`: cut the description at the first sentinel and trim
trailing newlines; identity when no sentinel occurs. -/
def stripQueueMetadata (s : List Char) : List Char :=
  match indexOfSub qmDelim s with
  | none => s
  | some i => trimRightNL (s.take i)

/-- A well-behaved field value for the round-trip law: either unset, or
newline-free and unchanged by whitespace trimming (the codec stores values
verbatim but the parser trims each line and each value). -/
def CleanField (v : List Char) : Prop :=
  v = [] ∨ (('\n' ∉ v) ∧ trimLeftSpace v = v ∧ trimRightSpace v = v)

instance (v : List Char) : Decidable (CleanField v) := by
  unfold CleanField
  infer_instance

/-- All ten string fields of a `QueueMetadata` are well behaved. -/
def CleanQM (m : QueueMetadata) : Prop :=
  CleanField m.targetRig ∧ CleanField m.formula ∧ CleanField m.args ∧
  CleanField m.vars ∧ CleanField m.enqueuedAt ∧ CleanField m.merge ∧
  CleanField m.convoy ∧ CleanField m.baseBranch ∧ CleanField m.account ∧
  CleanField m.agent

instance (m : QueueMetadata) : Decidable (CleanQM m) := by
  unfold CleanQM
  infer_instance

/-- The shape shared by the codec's keys: nonempty, untouched by trimming,
and free of `':'` (so `SplitN(line, ": ", 2)` cuts at the key) and of
newlines. -/
def KeyGood (key : List Char) : Prop :=
  key ≠ [] ∧ trimLeftSpace key = key ∧ trimSpace key = key ∧ (':' ∉ key) ∧ ('\n' ∉ key)

instance (key : List Char) : Decidable (KeyGood key) := by
  unfold KeyGood
  infer_instance

/-! ## Restart tracker (`internal/daemon/restart_tracker.go`)

`time.Time` and `time.Duration` are modelled as `Int` nanoseconds, with the
Go zero `time.Time` as `0` (every observable wall-clock `now` is positive).
The Go backoff loop multiplies a `time.Duration` by a `float64` multiplier
and truncates back to `time.Duration`; this is modelled with the multiplier
as an exact rational and floor division `Int.fdiv` (truncation toward zero
equals floor for the positive durations involved), which coincides with the
`float64` computation
for the default config, whose products stay below `2^53` and are exact in
binary floating point. -/

/-- `RestartTrackerConfig`. -/
structure RestartTrackerConfig where
  initialBackoff : Int
  maxBackoff : Int
  backoffMultiplier : ℚ
  crashLoopWindow : Int
  crashLoopCount : Int
  stabilityPeriod : Int
deriving DecidableEq, Repr

/-- `DefaultRestartTrackerConfig`: 30 s, 10 min, 2.0, 15 min, 5, 30 min. -/
def defaultRestartTrackerConfig : RestartTrackerConfig :=
  { initialBackoff := 30 * 1000000000
    maxBackoff := 600 * 1000000000
    backoffMultiplier := 2
    crashLoopWindow := 900 * 1000000000
    crashLoopCount := 5
    stabilityPeriod := 1800 * 1000000000 }

/-- `RestartTrackerConfig.withDefaults`: zero or negative fields are
replaced by the defaults. -/
def RestartTrackerConfig.withDefaults (c : RestartTrackerConfig) : RestartTrackerConfig :=
  let d := defaultRestartTrackerConfig
  { initialBackoff := if c.initialBackoff ≤ 0 then d.initialBackoff else c.initialBackoff
    maxBackoff := if c.maxBackoff ≤ 0 then d.maxBackoff else c.maxBackoff
    backoffMultiplier :=
      if c.backoffMultiplier ≤ 0 then d.backoffMultiplier else c.backoffMultiplier
    crashLoopWindow := if c.crashLoopWindow ≤ 0 then d.crashLoopWindow else c.crashLoopWindow
    crashLoopCount := if c.crashLoopCount ≤ 0 then d.crashLoopCount else c.crashLoopCount
    stabilityPeriod := if c.stabilityPeriod ≤ 0 then d.stabilityPeriod else c.stabilityPeriod }

/-- `AgentRestartInfo`; `crashLoopSince = 0` is Go's zero `time.Time`
(`CrashLoopSince.IsZero()`), likewise `lastRestart` and `backoffUntil`. -/
structure AgentRestartInfo where
  lastRestart : Int
  restartCount : Int
  backoffUntil : Int
  crashLoopSince : Int
deriving DecidableEq, Repr

/-- The zero `AgentRestartInfo` allocated by `RecordRestart` for a new
agent. -/
def AgentRestartInfo.zero : AgentRestartInfo := ⟨0, 0, 0, 0⟩

/-- `RestartState.Agents`, a Go map modelled as an association list. -/
abbrev RestartState := List (String × AgentRestartInfo)

/-- Go map read `rt.state.Agents[agentID]`. -/
def lookupAgent (id : String) : RestartState → Option AgentRestartInfo
  | [] => none
  | kv :: rest => if kv.1 = id then some kv.2 else lookupAgent id rest

/-- Go map write `rt.state.Agents[agentID] = info`. -/
def setAgent (id : String) (info : AgentRestartInfo) : RestartState → RestartState
  | [] => [(id, info)]
  | kv :: rest => if kv.1 = id then (kv.1, info) :: rest else kv :: setAgent id info rest

/-- The backoff loop of `RecordRestart`:
`for i := 1; i < count && backoff < max; i++ { backoff = D(float64(backoff) * mult) }`,
with fuel `count - 1`. -/
def backoffLoop (mult : ℚ) (maxB : Int) : Nat → Int → Int
  | 0, b => b
  | n + 1, b =>
    if b < maxB then backoffLoop mult maxB n (Int.fdiv (b * mult.num) (mult.den : Int)) else b

/-- The backoff duration computed by `RecordRestart` for a given restart
count, clamped at `MaxBackoff`. -/
def computeBackoff (cfg : RestartTrackerConfig) (count : Int) : Int :=
  let b := backoffLoop cfg.backoffMultiplier cfg.maxBackoff (count - 1).toNat cfg.initialBackoff
  if b > cfg.maxBackoff then cfg.maxBackoff else b

/-- `CanRestart`: `true` when no record exists; else `false` in crash loop;
else `time.Now().After(info.BackoffUntil)` — the strict comparison
`now > backoffUntil`. -/
def canRestart (now : Int) (st : RestartState) (id : String) : Bool :=
  match lookupAgent id st with
  | none => true
  | some info =>
    if info.crashLoopSince ≠ 0 then false
    else decide (now > info.backoffUntil)

/-- `RecordRestart` at wall-clock `now`. -/
def recordRestart (cfg : RestartTrackerConfig) (now : Int) (id : String)
    (st : RestartState) : RestartState :=
  let info := (lookupAgent id st).getD AgentRestartInfo.zero
  let info :=
    if info.lastRestart ≠ 0 ∧ now - info.lastRestart > cfg.stabilityPeriod then
      { info with restartCount := 0, crashLoopSince := 0 }
    else info
  let info := { info with lastRestart := now, restartCount := info.restartCount + 1 }
  let info := { info with backoffUntil := now + computeBackoff cfg info.restartCount }
  let info :=
    if info.restartCount ≥ cfg.crashLoopCount ∧ info.lastRestart > now - cfg.crashLoopWindow then
      { info with crashLoopSince := now }
    else info
  setAgent id info st

/-- `RecordSuccess` at wall-clock `now`. -/
def recordSuccess (cfg : RestartTrackerConfig) (now : Int) (id : String)
    (st : RestartState) : RestartState :=
  match lookupAgent id st with
  | none => st
  | some info =>
    if now - info.lastRestart > cfg.stabilityPeriod then
      setAgent id { info with restartCount := 0, crashLoopSince := 0, backoffUntil := 0 } st
    else st

/-- `IsInCrashLoop`. -/
def isInCrashLoop (st : RestartState) (id : String) : Bool :=
  match lookupAgent id st with
  | none => false
  | some info => decide (info.crashLoopSince ≠ 0)

/-- `GetBackoffRemaining` at wall-clock `now` (`time.Until`, floored at 0). -/
def getBackoffRemaining (now : Int) (st : RestartState) (id : String) : Int :=
  match lookupAgent id st with
  | none => 0
  | some info =>
    let remaining := info.backoffUntil - now
    if remaining < 0 then 0 else remaining

/-- `ClearCrashLoop`: reset crash loop, count and backoff for an existing
record; no-op when the agent has no record. -/
def clearCrashLoop (id : String) (st : RestartState) : RestartState :=
  match lookupAgent id st with
  | none => st
  | some info =>
    setAgent id { info with crashLoopSince := 0, restartCount := 0, backoffUntil := 0 } st

/-! ## Scheduled-maintenance window (`internal/daemon`)

`parseWindowTime` / `isInMaintenanceWindow`. A wall-clock instant is
modelled as a pair `(dayStart, offset)`: `dayStart` is the nanosecond
timestamp of midnight of `now`'s calendar day in `now`'s location and
`offset` the nanoseconds since that midnight (`0 ≤ offset < 86400e9`), so
`time.Date(now.Year(), now.Month(), now.Day(), hour, minute, 0, 0,
now.Location())` is `dayStart + (hour*3600 + minute*60) * 1e9` (exact for
fixed-offset locations, i.e. absent DST transitions). -/

/-- The digits of a decimal literal, `none` on empty input or a non-digit. -/
def digitsToNat : List Char → Option Nat
  | [] => none
  | [c] => if c.isDigit then some (c.toNat - 48) else none
  | c :: cs =>
    if c.isDigit then (digitsToNat cs).map (fun n => (c.toNat - 48) * 10 ^ cs.length + n)
    else none

/-- Go `strconv.Atoi`: optional sign, then one or more digits. -/
def atoiGo (s : List Char) : Option Int :=
  match s with
  | [] => none
  | c :: cs =>
    if c = '+' then (digitsToNat cs).map Int.ofNat
    else if c = '-' then (digitsToNat cs).map (fun n => -(n : Int))
    else (digitsToNat s).map Int.ofNat

/-- `parseWindowTime`: split on the first `":"`, `Atoi` both parts, reject
hours outside `0..23` and minutes outside `0..59`. -/
def parseWindowTime (w : List Char) : Option (Int × Int) :=
  match splitOnFirstSub ([':']) w with
  | none => none
  | some parts =>
    match atoiGo parts.1 with
    | none => none
    | some hour =>
      if hour < 0 ∨ hour > 23 then none
      else
        match atoiGo parts.2 with
        | none => none
        | some minute =>
          if minute < 0 ∨ minute > 59 then none else some (hour, minute)

/-- `isInMaintenanceWindow`: `false` on an unparseable window, else
`!now.Before(windowStart) && now.Before(windowStart + 1h)` with
`windowStart` at `HH:MM` of `now`'s day. -/
def isInMaintenanceWindow (dayStart offset : Int) (w : List Char) : Bool :=
  match parseWindowTime w with
  | none => false
  | some hm =>
    let windowStart := dayStart + (hm.1 * 3600 + hm.2 * 60) * 1000000000
    let windowEnd := windowStart + 3600 * 1000000000
    let now := dayStart + offset
    decide (¬ now < windowStart ∧ now < windowEnd)

/-- A two-digit decimal rendering `HH` of `n ≤ 99`, for stating the
well-formed `"HH:MM"` window strings. -/
def twoDigits (n : Nat) : List Char :=
  [Char.ofNat (48 + n / 10), Char.ofNat (48 + n % 10)]

/-- The canonical window string `"HH:MM"`. -/
def windowString (h m : Nat) : List Char :=
  twoDigits h ++ ':' :: twoDigits m

/-! ## Polecat session heartbeats (`internal/polecat`, session heartbeat file)

The heartbeat file for a session is modelled by what the two fallible steps
of `ReadSessionHeartbeat` can observe: `os.ReadFile` failing (file missing
or unreadable), `json.Unmarshal` failing, or a parsed timestamp. -/

/-- `SessionHeartbeatStaleThreshold = 3 * time.Minute`. -/
def sessionHeartbeatStaleThreshold : Int := 180 * 1000000000

/-- Observable states of a session's heartbeat file. -/
inductive HeartbeatFile where
  | missing
  | unreadable
  | badJSON
  | valid (timestamp : Int)
deriving DecidableEq, Repr

/-- `ReadSessionHeartbeat`: `nil` (`none`) when the file does not exist,
cannot be read, or fails to unmarshal; otherwise the parsed heartbeat. -/
def readSessionHeartbeat : HeartbeatFile → Option Int
  | .missing => none
  | .unreadable => none
  | .badJSON => none
  | .valid t => some t

/-- `IsSessionHeartbeatStale` at wall-clock `now`: `(false, false)` when
`ReadSessionHeartbeat` returns `nil`; else
`(time.Since(ts) ≥ threshold, true)`. -/
def isSessionHeartbeatStale (now : Int) (f : HeartbeatFile) : Bool × Bool :=
  match readSessionHeartbeat f with
  | none => (false, false)
  | some t => (decide (now - t ≥ sessionHeartbeatStaleThreshold), true)

/-! ## PID-file ownership (`writePIDFile` / `readPIDFile` /
`verifyPIDOwnership`)

The file is modelled by what `os.ReadFile` can observe; process liveness
(`process.Signal(syscall.Signal(0))` succeeding) by an oracle
`aliveP : Int → Bool`. -/

/-- Observable states of a PID file. -/
inductive PIDFile where
  | missing
  | unreadable
  | bytes (content : List Char)
deriving DecidableEq, Repr

/-- Results of `readPIDFile`. -/
inductive PIDRead where
  | notExist
  | readErr
  | parseErr
  | ok (pid : Int) (nonce : List Char)
deriving DecidableEq, Repr

/-- `readPIDFile`: trim the content, split on the first newline into at most
two parts, `Atoi` the first (trimmed), and return the trimmed second part as
the nonce — empty for the legacy one-line format. -/
def readPIDFile : PIDFile → PIDRead
  | .missing => .notExist
  | .unreadable => .readErr
  | .bytes content =>
    match splitOnFirstSub (['\n']) (trimSpace content) with
    | none =>
      -- one part: `parts = [s]`
      let p0 := trimSpace content
      if p0 = [] then .parseErr
      else
        match atoiGo (trimSpace p0) with
        | none => .parseErr
        | some pid => .ok pid []
    | some parts =>
      if parts.1 = [] then .parseErr
      else
        match atoiGo (trimSpace parts.1) with
        | none => .parseErr
        | some pid => .ok pid (trimSpace parts.2)

/-- `verifyPIDOwnership`: `(pid, alive, errored)`. A missing file gives
`(0, false)` with no error, a read error propagates the error, a parse error
propagates the error, a dead PID gives `(pid, false)`; a live PID gives
`(pid, true)` whether the nonce is empty (legacy, "benefit of the doubt")
or not. -/
def verifyPIDOwnership (aliveP : Int → Bool) (f : PIDFile) : Int × Bool × Bool :=
  match readPIDFile f with
  | .notExist => (0, false, false)
  | .readErr => (0, false, true)
  | .parseErr => (0, false, true)
  | .ok pid nonce =>
    if aliveP pid then
      if nonce = [] then
        -- legacy format: process alive, PID matches — accepted
        (pid, true, false)
      else (pid, true, false)
    else (pid, false, false)

/-! ## Rig availability (`IsRigParkedOrDocked`, package `cmd`)

`IsRigParked` (the ephemeral wisp `status: parked` flag), `rig.LoadRigConfig`
and `IsRigDocked` (the persistent label on the rig's identity bead) are
callees outside the embedded sources and are modelled as oracles. -/

/-- Oracles for the rig-state callees of `IsRigParkedOrDocked`. -/
structure RigEnv where
  /-- `IsRigParked townRoot rigName`: the wisp config carries
  `status: parked`. -/
  isRigParked : String → String → Bool
  /-- `rig.LoadRigConfig rigPath`: `none` = load error; `some none` =
  loaded with `Beads == nil`; `some (some pfx)` = loaded, beads prefix
  `pfx`. -/
  loadRigConfig : String → Option (Option String)
  /-- `IsRigDocked townRoot rigName pfx`: the rig's identity bead carries
  the docked label. -/
  isRigDocked : String → String → String → Bool

/-- `IsRigParkedOrDocked` (the single sling/dispatch entry point for rig
availability): parked wins, then docked via the rig's beads config; a
config load error or nil beads config reads as not blocked. -/
def IsRigParkedOrDocked (env : RigEnv) (townRoot rigName : String) : Bool × String :=
  if env.isRigParked townRoot rigName then (true, "parked")
  else
    match env.loadRigConfig (townRoot ++ "/" ++ rigName) with
    | none => (false, "")
    | some none => (false, "")
    | some (some pfx) =>
      if env.isRigDocked townRoot rigName pfx then (true, "docked") else (false, "")

/-! ## Dispatch (sling): per-bead lock and guards

`executeSling` itself is not among the embedded sources (only its tests
are), so its locking and guard skeleton is modelled from the spec. -/

/-- `SlingParams`. -/
structure SlingParams where
  beadID : String
  rigName : String
  townRoot : String

/-- Outcome of a dispatch: Go's `(result, err)` pair — `err` is the
returned error (`none` = nil) and `errMsg` the result record's `err_msg`
field. -/
structure SlingOutcome where
  err : Option String
  errMsg : String
deriving DecidableEq, Repr

/-- Modelled from the spec: the body of `executeSling` after the per-bead
lock is acquired (`executeSling` is not under `src/`). Step 2 checks rig
availability via `IsRigParkedOrDocked` and fails with a message naming the
offending rig and the remedy verb (`unpark` / `undock`), recording
`err_msg = "rig parked"` for a parked rig; step 3 reads the bead and fails
the closed-bead guard when its status is `closed`. -/
def slingBody (env : RigEnv) (beadStatus : String → Option String)
    (p : SlingParams) : SlingOutcome :=
  match IsRigParkedOrDocked env p.townRoot p.rigName with
  | (true, reason) =>
    if reason = "parked" then
      { err := some ("rig \x27" ++ p.rigName ++ "\x27 is parked - use \x27gt rig unpark "
          ++ p.rigName ++ "\x27 first")
        errMsg := "rig parked" }
    else
      { err := some ("rig \x27" ++ p.rigName ++ "\x27 is docked - use \x27gt rig undock "
          ++ p.rigName ++ "\x27 first")
        errMsg := "rig docked" }
  | (false, _) =>
    match beadStatus p.beadID with
    | none => { err := some ("reading bead " ++ p.beadID ++ " failed"), errMsg := "" }
    | some status =>
      if status = "closed" then
        { err := some ("bead " ++ p.beadID ++ " is closed"), errMsg := "" }
      else { err := none, errMsg := "" }

/-- Modelled from the spec: `executeSling`'s lock discipline
(`executeSling` / `tryAcquireSlingBeadLock` are not under `src/`). The
advisory file lock is keyed on `(town_root, bead_id)`; the set of held keys
is the explicit state. If the key is held the dispatch fails with
"already being slung" and the lock state is untouched; otherwise the key is
acquired, the body runs, and the key is released when the function returns
— on success or failure. -/
def executeSling (env : RigEnv) (beadStatus : String → Option String)
    (p : SlingParams) (locks : List (String × String)) :
    SlingOutcome × List (String × String) :=
  let key := (p.townRoot, p.beadID)
  if key ∈ locks then
    ({ err := some ("bead " ++ p.beadID ++ " is already being slung"), errMsg := "" }, locks)
  else
    let locked := key :: locks
    let outcome := slingBody env beadStatus p
    (outcome, locked.erase key)

/-! ## Auto-convoy creation (`internal/cmd/sling_convoy.go`,
`createAutoConvoy`)

The bead store behind the `bd` CLI is modelled from the spec as a list of
convoy records with `create` / `dep add --type=tracks` / `close`
transitions; `dep add` may fail (`depAddOk`), which is the failure the
claim is about. `beads.IsFlagLikeTitle` is not under `src/` and is
modelled from the spec. -/

/-- A convoy bead as far as the claim needs it: id, status, tracked
beads. -/
structure ConvoyRecord where
  id : String
  status : String
  tracks : List String
deriving DecidableEq, Repr

/-- The convoy beads visible in the store. -/
abbrev ConvoyStore := List ConvoyRecord

/-- Modelled from the spec: `beads.IsFlagLikeTitle` — a title that looks
like a CLI flag, i.e. starts with `-` (not under `src/`). -/
def isFlagLikeTitle (title : String) : Bool :=
  match title.toList with
  | '-' :: _ => true
  | _ => false

/-- Modelled from the spec: `bd create --type=convoy --id=<id>` adds an
open convoy tracking nothing. -/
def bdCreateConvoy (id : String) (st : ConvoyStore) : ConvoyStore :=
  ⟨id, "open", []⟩ :: st

/-- Modelled from the spec: `bd dep add <convoy> <bead> --type=tracks`. -/
def bdDepAddTracks (convoyID beadID : String) (st : ConvoyStore) : ConvoyStore :=
  st.map (fun c => if c.id = convoyID then { c with tracks := beadID :: c.tracks } else c)

/-- Modelled from the spec: `bd close <convoy>` sets the convoy's status to
closed. -/
def bdClose (convoyID : String) (st : ConvoyStore) : ConvoyStore :=
  st.map (fun c => if c.id = convoyID then { c with status := "closed" } else c)

/-- Success/failure of the two fallible `bd` invocations of
`createAutoConvoy`. -/
structure ConvoyEnv where
  /-- `slingGenerateShortID()`. -/
  shortID : String
  /-- the `bd create` invocation succeeds. -/
  createOk : Bool
  /-- the `bd dep add --type=tracks` invocation succeeds. -/
  depAddOk : Bool

/-- `createAutoConvoy`: reject flag-like titles; create the convoy bead
`hq-cv-<shortID>`; add the `tracks` dep; when the dep add fails, close the
just-created convoy and return an error. `none` is an error return (the Go
`("", err)`); `some id` is success. -/
def createAutoConvoy (env : ConvoyEnv) (beadID beadTitle : String)
    (st : ConvoyStore) : Option String × ConvoyStore :=
  if isFlagLikeTitle beadTitle then (none, st)
  else
    let convoyID := "hq-cv-" ++ env.shortID
    if env.createOk = false then (none, st)
    else
      let st1 := bdCreateConvoy convoyID st
      if env.depAddOk = false then (none, bdClose convoyID st1)
      else (some convoyID, bdDepAddTracks convoyID beadID st1)

/-! ## General lemmas about the string primitives -/

theorem containsSub_iff (pat : List Char) :
    ∀ s, containsSub pat s = true ↔ ∃ a b, s = a ++ pat ++ b := by
  intro s
  induction s with
  | nil =>
    cases pat with
    | nil => simp [containsSub, indexOfSub, List.isPrefixOf]
    | cons x xs =>
      simp only [containsSub, indexOfSub, List.isPrefixOf]
      constructor
      · intro h; simp at h
      · rintro ⟨a, b, hab⟩
        exact absurd hab.symm (by simp)
  | cons c cs ih =>
    simp only [containsSub, indexOfSub]
    by_cases hp : pat.isPrefixOf (c :: cs) = true
    · simp only [hp, if_true, Option.isSome_some, true_iff]
      obtain ⟨t, ht⟩ := List.isPrefixOf_iff_prefix.mp hp
      exact ⟨[], t, by simp [ht.symm]⟩
    · simp only [hp, if_false, Bool.false_eq_true]
      rw [show ((indexOfSub pat cs).map (· + 1)).isSome = containsSub pat cs by
        unfold containsSub; cases indexOfSub pat cs <;> simp]
      rw [ih]
      constructor
      · rintro ⟨a, b, rfl⟩
        exact ⟨c :: a, b, by simp⟩
      · rintro ⟨a, b, hab⟩
        cases a with
        | nil =>
          exfalso
          exact hp (List.isPrefixOf_iff_prefix.mpr ⟨b, by simpa using hab.symm⟩)
        | cons c' a' =>
          simp only [List.cons_append, List.cons.injEq] at hab
          exact ⟨a', b, hab.2⟩

theorem containsSub_append_right {pat t : List Char} (s : List Char)
    (h : containsSub pat t = true) : containsSub pat (s ++ t) = true := by
  rw [containsSub_iff] at h ⊢
  obtain ⟨a, b, rfl⟩ := h
  exact ⟨s ++ a, b, by simp⟩

theorem containsSub_append_left {pat s : List Char} (t : List Char)
    (h : containsSub pat s = true) : containsSub pat (s ++ t) = true := by
  rw [containsSub_iff] at h ⊢
  obtain ⟨a, b, rfl⟩ := h
  exact ⟨a, b ++ t, by simp⟩

theorem containsSub_middle (pat a b : List Char) :
    containsSub pat (a ++ pat ++ b) = true :=
  (containsSub_iff pat _).mpr ⟨a, b, rfl⟩

theorem toList_append (s t : String) : (s ++ t).toList = s.toList ++ t.toList := by
  simp [String.toList, String.data_append]

/-! ## C1 — `CanRestart` backoff boundary -/

/-- C1, counterexample: after a single `RecordRestart` at time 100 ns the
record has `crash_loop_since` unset and `backoff_until = 100 + 30 s`; at
`now = backoff_until` exactly — so `now ≥ backoff_until` with the boundary
included — `CanRestart` returns `false`, refuting the claimed
"boundary included" equivalence. -/
theorem C1_canRestart_boundary_counterexample :
    canRestart 30000000100 (recordRestart defaultRestartTrackerConfig 100 ("a") []) ("a")
        = false ∧
    (lookupAgent ("a") (recordRestart defaultRestartTrackerConfig 100 ("a") [])).map
        AgentRestartInfo.crashLoopSince = some 0 ∧
    (lookupAgent ("a") (recordRestart defaultRestartTrackerConfig 100 ("a") [])).map
        AgentRestartInfo.backoffUntil = some 30000000100 := by
  decide

/-- C1, amended: `CanRestart(a)` returns `true` if and only if `a` has no
restart record, or `a`'s record has `crash_loop_since` unset and the current
time is strictly after `backoff_until` (`now > backoff_until`, boundary
excluded — `time.Now().After`). -/
theorem C1_canRestart_iff (now : Int) (st : RestartState) (a : String) :
    canRestart now st a = true ↔
      (lookupAgent a st = none ∨
        ∃ info, lookupAgent a st = some info ∧
          info.crashLoopSince = 0 ∧ now > info.backoffUntil) := by
  unfold canRestart
  cases h : lookupAgent a st with
  | none => simp
  | some info =>
    by_cases hc : info.crashLoopSince = 0
    · simp [hc]
    · simp [hc]

/-! ## C5 — PID ownership and the legacy empty nonce -/

/-- C5, counterexample: a legacy one-line PID file whose PID is alive parses
with an empty nonce, yet `verifyPIDOwnership` reports `alive = true` — a
live PID with an empty (legacy) nonce IS reported as owned, refuting the
claimed "if and only if ... nonce non-empty". -/
theorem C5_legacy_nonce_counterexample :
    readPIDFile (.bytes (("54321").toList)) = .ok 54321 [] ∧
    verifyPIDOwnership (fun _ => true) (.bytes (("54321").toList)) = (54321, true, false) := by
  decide

/-- C5, amended: `verifyPIDOwnership` reports `alive = true` if and only if
the PID file exists and parses (to some PID and nonce, the nonce possibly
empty in the legacy one-line format) and the recorded PID refers to a live
process; the nonce plays no role in the aliveness verdict — a legacy empty
nonce is accepted ("benefit of the doubt"). -/
theorem C5_verify_alive_iff (aliveP : Int → Bool) (f : PIDFile) :
    (verifyPIDOwnership aliveP f).2.1 = true ↔
      ∃ pid nonce, readPIDFile f = .ok pid nonce ∧ aliveP pid = true := by
  unfold verifyPIDOwnership
  cases h : readPIDFile f with
  | notExist => simp
  | readErr => simp
  | parseErr => simp
  | ok pid nonce =>
    by_cases ha : aliveP pid = true
    · simp [ha, ite_self]
    · simp [Bool.not_eq_true] at ha
      simp [ha]

/-- C5 witness: a two-line PID file for PID 7 with a live-7 oracle is
reported alive through the amended equivalence. -/
theorem C5_verify_alive_iff_witness :
    (verifyPIDOwnership (fun p => decide (p = 7)) (.bytes (("7\ndeadbeef").toList))).2.1
      = true :=
  (C5_verify_alive_iff _ _).mpr ⟨7, ("deadbeef").toList, by decide, by decide⟩

/-! ## C10 — stale heartbeats -/

/-- C10: a missing, unreadable or unparseable heartbeat file (exactly the
cases where `ReadSessionHeartbeat` returns `nil`) yields
`(stale, exists) = (false, false)`; staleness — age at or above the
3-minute threshold — is reported only for a parseable heartbeat file. -/
theorem C10_heartbeat_missing_never_stale (now : Int) (f : HeartbeatFile) :
    (readSessionHeartbeat f = none → isSessionHeartbeatStale now f = (false, false)) ∧
    (∀ t, f = .valid t →
      isSessionHeartbeatStale now f =
        (decide (now - t ≥ sessionHeartbeatStaleThreshold), true)) := by
  constructor
  · intro h
    simp [isSessionHeartbeatStale, h]
  · intro t ht
    subst ht
    simp [isSessionHeartbeatStale, readSessionHeartbeat]

/-- C10 witness: a missing file is `(false, false)`; a heartbeat 200 s old
(past the 180 s threshold) is `(true, true)`. -/
theorem C10_heartbeat_witness :
    isSessionHeartbeatStale 0 .missing = (false, false) ∧
    isSessionHeartbeatStale (200 * 1000000000) (.valid 0) = (true, true) := by
  constructor
  · exact (C10_heartbeat_missing_never_stale 0 .missing).1 rfl
  · rw [(C10_heartbeat_missing_never_stale (200 * 1000000000) (.valid 0)).2 0 rfl]
    decide

theorem containsSub_self (pat t : List Char) : containsSub pat (pat ++ t) = true :=
  (containsSub_iff pat _).mpr ⟨[], t, by simp⟩

theorem executeSling_held (env : RigEnv) (bs : String → Option String)
    (p : SlingParams) (locks : List (String × String))
    (h : (p.townRoot, p.beadID) ∈ locks) :
    executeSling env bs p locks =
      ({ err := some ("bead " ++ p.beadID ++ " is already being slung"), errMsg := "" },
        locks) := by
  simp only [executeSling]
  rw [if_pos h]

theorem executeSling_free (env : RigEnv) (bs : String → Option String)
    (p : SlingParams) (locks : List (String × String))
    (h : (p.townRoot, p.beadID) ∉ locks) :
    executeSling env bs p locks = (slingBody env bs p, locks) := by
  simp only [executeSling]
  rw [if_neg h, List.erase_cons_head]

/-! ## C4 — per-bead advisory lock -/

/-- C4: (1) when the `(town_root, bead_id)` lock key is already held,
`executeSling` fails with "already being slung" (and does not touch the lock
state); (2) when it is free, the lock is acquired and released by the time
the call returns, leaving the lock state as it was; hence (3) an immediately
subsequent dispatch of the same bead against a store returning
`status = closed` fails the closed-bead guard, not the lock-contention
error. -/
theorem C4_bead_lock_exclusion (env : RigEnv) (bs bs2 : String → Option String)
    (p : SlingParams) (locks : List (String × String)) :
    ((p.townRoot, p.beadID) ∈ locks →
      (executeSling env bs p locks).1.err =
          some ("bead " ++ p.beadID ++ " is already being slung") ∧
      (executeSling env bs p locks).2 = locks ∧
      ∃ msg, (executeSling env bs p locks).1.err = some msg ∧
        strContains msg "already being slung" = true) ∧
    ((p.townRoot, p.beadID) ∉ locks → (executeSling env bs p locks).2 = locks) ∧
    ((p.townRoot, p.beadID) ∉ locks →
      IsRigParkedOrDocked env p.townRoot p.rigName = (false, "") →
      bs2 p.beadID = some "closed" →
      (executeSling env bs2 p ((executeSling env bs2 p locks).2)).1.err =
          some ("bead " ++ p.beadID ++ " is closed") ∧
      (executeSling env bs2 p ((executeSling env bs2 p locks).2)).1.err ≠
          some ("bead " ++ p.beadID ++ " is already being slung")) := by
  refine ⟨?_, ?_, ?_⟩
  · intro h
    rw [executeSling_held env bs p locks h]
    refine ⟨rfl, rfl, "bead " ++ p.beadID ++ " is already being slung", rfl, ?_⟩
    unfold strContains
    rw [toList_append, toList_append]
    exact containsSub_append_right _ (by decide)
  · intro h
    rw [executeSling_free env bs p locks h]
  · intro h hrig hbs
    have hbody : slingBody env bs2 p =
        { err := some ("bead " ++ p.beadID ++ " is closed"), errMsg := "" } := by
      unfold slingBody
      rw [hrig, hbs]
      simp
    have h1 : (executeSling env bs2 p locks).2 = locks := by
      rw [executeSling_free env bs2 p locks h]
    rw [h1, executeSling_free env bs2 p locks h, hbody]
    refine ⟨rfl, ?_⟩
    intro heq
    simp only [SlingOutcome.err, Option.some.injEq] at heq
    have hlen := congrArg String.length heq
    rw [String.length_append, String.length_append, String.length_append,
      String.length_append, show (" is closed" : String).length = 10 from rfl,
      show (" is already being slung" : String).length = 23 from rfl] at hlen
    omega

/-- C4 witness: with an empty lock table, a nonexistent-rig environment and
a closed bead, the first dispatch releases the lock and the second fails the
closed guard, not lock contention. -/
theorem C4_bead_lock_exclusion_witness :
    (executeSling ⟨fun _ _ => false, fun _ => none, fun _ _ _ => false⟩
        (fun _ => some "closed") ⟨"gt-lockrel1", "testrig", "/town"⟩
        ((executeSling ⟨fun _ _ => false, fun _ => none, fun _ _ _ => false⟩
          (fun _ => some "closed") ⟨"gt-lockrel1", "testrig", "/town"⟩ []).2)).1.err =
      some ("bead " ++ "gt-lockrel1" ++ " is closed") ∧
    (executeSling ⟨fun _ _ => false, fun _ => none, fun _ _ _ => false⟩
        (fun _ => some "closed") ⟨"gt-lockrel1", "testrig", "/town"⟩
        ((executeSling ⟨fun _ _ => false, fun _ => none, fun _ _ _ => false⟩
          (fun _ => some "closed") ⟨"gt-lockrel1", "testrig", "/town"⟩ []).2)).1.err ≠
      some ("bead " ++ "gt-lockrel1" ++ " is already being slung") :=
  (C4_bead_lock_exclusion ⟨fun _ _ => false, fun _ => none, fun _ _ _ => false⟩
    (fun _ => some "closed") (fun _ => some "closed")
    ⟨"gt-lockrel1", "testrig", "/town"⟩ []).2.2
    (by simp) rfl rfl

/-! ## C6 — parked / docked rig guard -/

/-- C6: a dispatch whose target rig reads parked fails with an error naming
the rig and the remedy verb `unpark`, and the result record carries
`err_msg = "rig parked"`; a dispatch whose target rig reads docked fails
with an error naming the rig and the remedy verb `undock`. -/
theorem C6_parked_docked_guard (env : RigEnv) (bs : String → Option String)
    (p : SlingParams) (locks : List (String × String))
    (hfree : (p.townRoot, p.beadID) ∉ locks) :
    (IsRigParkedOrDocked env p.townRoot p.rigName = (true, "parked") →
      (executeSling env bs p locks).1.errMsg = "rig parked" ∧
      ∃ msg, (executeSling env bs p locks).1.err = some msg ∧
        strContains msg "parked" = true ∧
        strContains msg p.rigName = true ∧
        strContains msg "unpark" = true) ∧
    (IsRigParkedOrDocked env p.townRoot p.rigName = (true, "docked") →
      ∃ msg, (executeSling env bs p locks).1.err = some msg ∧
        strContains msg "docked" = true ∧
        strContains msg p.rigName = true ∧
        strContains msg "undock" = true) := by
  constructor
  · intro hrig
    have hbody : slingBody env bs p =
        { err := some ("rig \x27" ++ p.rigName ++ "\x27 is parked - use \x27gt rig unpark "
            ++ p.rigName ++ "\x27 first")
          errMsg := "rig parked" } := by
      unfold slingBody
      rw [hrig]
      simp
    rw [executeSling_free env bs p locks hfree, hbody]
    refine ⟨rfl, "rig \x27" ++ p.rigName ++ "\x27 is parked - use \x27gt rig unpark "
      ++ p.rigName ++ "\x27 first", rfl, ?_, ?_, ?_⟩
    · unfold strContains
      rw [toList_append, toList_append, toList_append, toList_append,
        List.append_assoc, List.append_assoc, List.append_assoc]
      exact containsSub_append_right _ (containsSub_append_right _
        (containsSub_append_left _ (by decide)))
    · unfold strContains
      rw [toList_append, toList_append, toList_append, toList_append,
        List.append_assoc, List.append_assoc, List.append_assoc]
      exact containsSub_append_right _ (containsSub_self _ _)
    · unfold strContains
      rw [toList_append, toList_append, toList_append, toList_append,
        List.append_assoc, List.append_assoc, List.append_assoc]
      exact containsSub_append_right _ (containsSub_append_right _
        (containsSub_append_left _ (by decide)))
  · intro hrig
    have hbody : slingBody env bs p =
        { err := some ("rig \x27" ++ p.rigName ++ "\x27 is docked - use \x27gt rig undock "
            ++ p.rigName ++ "\x27 first")
          errMsg := "rig docked" } := by
      unfold slingBody
      rw [hrig]
      simp
    rw [executeSling_free env bs p locks hfree, hbody]
    refine ⟨"rig \x27" ++ p.rigName ++ "\x27 is docked - use \x27gt rig undock "
      ++ p.rigName ++ "\x27 first", rfl, ?_, ?_, ?_⟩
    · unfold strContains
      rw [toList_append, toList_append, toList_append, toList_append,
        List.append_assoc, List.append_assoc, List.append_assoc]
      exact containsSub_append_right _ (containsSub_append_right _
        (containsSub_append_left _ (by decide)))
    · unfold strContains
      rw [toList_append, toList_append, toList_append, toList_append,
        List.append_assoc, List.append_assoc, List.append_assoc]
      exact containsSub_append_right _ (containsSub_self _ _)
    · unfold strContains
      rw [toList_append, toList_append, toList_append, toList_append,
        List.append_assoc, List.append_assoc, List.append_assoc]
      exact containsSub_append_right _ (containsSub_append_right _
        (containsSub_append_left _ (by decide)))

/-- C6 witness: a rig whose wisp config reads parked makes the dispatch fail
with `err_msg = "rig parked"` and a message naming `testrig` and
`unpark`. -/
theorem C6_parked_docked_guard_witness :
    (executeSling ⟨fun _ _ => true, fun _ => none, fun _ _ _ => false⟩
        (fun _ => some "open") ⟨"test-123", "testrig", "/town"⟩ []).1.errMsg
      = "rig parked" ∧
    ∃ msg,
      (executeSling ⟨fun _ _ => true, fun _ => none, fun _ _ _ => false⟩
        (fun _ => some "open") ⟨"test-123", "testrig", "/town"⟩ []).1.err = some msg ∧
      strContains msg "parked" = true ∧
      strContains msg "testrig" = true ∧
      strContains msg "unpark" = true :=
  (C6_parked_docked_guard ⟨fun _ _ => true, fun _ => none, fun _ _ _ => false⟩
    (fun _ => some "open") ⟨"test-123", "testrig", "/town"⟩ [] (by simp)).1 rfl

/-! ## C9 — auto-convoy creation leaves no orphans -/

/-- C9: `createAutoConvoy` (1) rejects flag-like bead titles, leaving the
store untouched; (2) when the `tracks` dep add fails after the convoy bead
was created, it returns an error and the just-created convoy is closed; and
(3) in every outcome each convoy in the final store was either already
there, or is the newly created one — then either open and tracking the bead
with its id returned, or closed. -/
theorem C9_auto_convoy_no_orphan (env : ConvoyEnv) (beadID beadTitle : String)
    (st : ConvoyStore)
    (hfresh : ∀ c ∈ st, c.id ≠ "hq-cv-" ++ env.shortID) :
    (isFlagLikeTitle beadTitle = true →
      createAutoConvoy env beadID beadTitle st = (none, st)) ∧
    (isFlagLikeTitle beadTitle = false → env.createOk = true → env.depAddOk = false →
      (createAutoConvoy env beadID beadTitle st).1 = none ∧
      ∀ c ∈ (createAutoConvoy env beadID beadTitle st).2,
        c.id = "hq-cv-" ++ env.shortID → c.status = "closed") ∧
    (∀ c ∈ (createAutoConvoy env beadID beadTitle st).2,
      c ∈ st ∨
      (c.status = "open" ∧ beadID ∈ c.tracks ∧
        (createAutoConvoy env beadID beadTitle st).1 = some c.id) ∨
      c.status = "closed") := by
  refine ⟨?_, ?_, ?_⟩
  · intro h
    simp [createAutoConvoy, h]
  · intro hf hc hd
    refine ⟨by simp [createAutoConvoy, hf, hc, hd], ?_⟩
    intro c hcmem hcid
    simp [createAutoConvoy, hf, hc, hd, bdClose, bdCreateConvoy] at hcmem
    rcases hcmem with hc1 | ⟨c0, hc0, hc0e⟩
    · rw [hc1]
    · exfalso
      have hne := hfresh c0 hc0
      rw [if_neg hne] at hc0e
      rw [← hc0e] at hcid
      exact hne hcid
  · intro c hcmem
    by_cases hf : isFlagLikeTitle beadTitle = true
    · simp [createAutoConvoy, hf] at hcmem
      exact Or.inl hcmem
    · simp only [Bool.not_eq_true] at hf
      by_cases hc : env.createOk = true
      · by_cases hd : env.depAddOk = true
        · simp [createAutoConvoy, hf, hc, hd, bdDepAddTracks, bdCreateConvoy] at hcmem
          rcases hcmem with hc1 | ⟨c0, hc0, hc0e⟩
          · refine Or.inr (Or.inl ?_)
            rw [hc1]
            refine ⟨rfl, by simp, ?_⟩
            simp [createAutoConvoy, hf, hc, hd]
          · have hne := hfresh c0 hc0
            rw [if_neg hne] at hc0e
            rw [← hc0e]
            exact Or.inl hc0
        · simp only [Bool.not_eq_true] at hd
          simp [createAutoConvoy, hf, hc, hd, bdClose, bdCreateConvoy] at hcmem
          rcases hcmem with hc1 | ⟨c0, hc0, hc0e⟩
          · refine Or.inr (Or.inr ?_)
            rw [hc1]
          · have hne := hfresh c0 hc0
            rw [if_neg hne] at hc0e
            rw [← hc0e]
            exact Or.inl hc0
      · simp only [Bool.not_eq_true] at hc
        simp [createAutoConvoy, hf, hc] at hcmem
        exact Or.inl hcmem

/-- C9 witness: on an empty store with a failing dep add, the call errors
and the created convoy ends closed. -/
theorem C9_auto_convoy_witness :
    (createAutoConvoy ⟨"abc12", true, false⟩ "gt-x1" "Fix parser" []).1 = none ∧
    ∀ c ∈ (createAutoConvoy ⟨"abc12", true, false⟩ "gt-x1" "Fix parser" []).2,
      c.id = "hq-cv-" ++ ("abc12" : String) → c.status = "closed" :=
  (C9_auto_convoy_no_orphan ⟨"abc12", true, false⟩ "gt-x1" "Fix parser" []
    (by simp)).2.1 (by decide) rfl rfl

/-! ## C8 — maintenance window -/

theorem parseWindowTime_windowString :
    ∀ h : Nat, h < 24 → ∀ m : Nat, m < 60 →
      parseWindowTime (windowString h m) = some ((h : Int), (m : Int)) := by
  decide

/-- C8: every well-formed window string `"HH:MM"` with hour `0..23` and
minute `0..59` parses to `(hour, minute)`; for a parsed window,
`isInMaintenanceWindow` is true exactly on the half-open one-hour interval
`[windowStart, windowStart + 1h)` of `now`'s day — in particular true at the
start instant and false at exactly one hour after it; and an unparseable
window string always yields false. -/
theorem C8_maintenance_window_iff (dayStart offset : Int) (w : List Char) :
    (∀ h m : Nat, h < 24 → m < 60 →
      parseWindowTime (windowString h m) = some ((h : Int), (m : Int))) ∧
    (∀ h m : Int, parseWindowTime w = some (h, m) →
      (isInMaintenanceWindow dayStart offset w = true ↔
        dayStart + (h * 3600 + m * 60) * 1000000000 ≤ dayStart + offset ∧
          dayStart + offset <
            dayStart + (h * 3600 + m * 60) * 1000000000 + 3600 * 1000000000)) ∧
    (parseWindowTime w = none → isInMaintenanceWindow dayStart offset w = false) := by
  refine ⟨?_, ?_, ?_⟩
  · intro h m hh hm
    exact parseWindowTime_windowString h hh m hm
  · intro h m hp
    unfold isInMaintenanceWindow
    rw [hp]
    simp only [decide_eq_true_eq, not_lt]
  · intro hp
    unfold isInMaintenanceWindow
    rw [hp]

/-- C8 witness: for window `"03:00"` the check is true at 03:00:00.000 and
false at 04:00:00.000 exactly; `"24:00"` is rejected and yields false. -/
theorem C8_maintenance_window_witness :
    parseWindowTime (windowString 3 0) = some (3, 0) ∧
    isInMaintenanceWindow 0 (3 * 3600 * 1000000000) (windowString 3 0) = true ∧
    isInMaintenanceWindow 0 (4 * 3600 * 1000000000) (windowString 3 0) = false ∧
    isInMaintenanceWindow 0 0 (("24:00").toList) = false := by
  have h1 := (C8_maintenance_window_iff 0 0 (windowString 3 0)).1 3 0
    (by decide) (by decide)
  refine ⟨h1, ?_, ?_, ?_⟩
  · exact ((C8_maintenance_window_iff 0 (3 * 3600 * 1000000000)
      (windowString 3 0)).2.1 3 0 h1).mpr (by omega)
  · have hiff := (C8_maintenance_window_iff 0 (4 * 3600 * 1000000000)
      (windowString 3 0)).2.1 3 0 h1
    refine Bool.eq_false_iff.mpr (fun hx => ?_)
    have := hiff.mp hx
    omega
  · exact (C8_maintenance_window_iff 0 0 (("24:00").toList)).2.2 (by decide)

/-! ## C2 — restart tracker scenario -/

/-- C2: starting from a fresh tracker with the default config, for any
wall-clock instants `0 < t0 ≤ t1 ≤ t2 ≤ t3 ≤ t4` with all five restarts
inside the 15-minute crash-loop window: after the second `RecordRestart`
the backoff remaining is positive; after the fifth, `IsInCrashLoop` is true
and `CanRestart` false; and `ClearCrashLoop` makes `CanRestart` true
again. -/
theorem C2_restart_scenario (t0 t1 t2 t3 t4 : Int)
    (h0 : 0 < t0) (h01 : t0 ≤ t1) (h12 : t1 ≤ t2) (h23 : t2 ≤ t3) (h34 : t3 ≤ t4)
    (hwin : t4 - t0 < 900 * 1000000000) :
    getBackoffRemaining t1
        (recordRestart defaultRestartTrackerConfig t1 ("a")
          (recordRestart defaultRestartTrackerConfig t0 ("a") [])) ("a") > 0 ∧
    isInCrashLoop
        (recordRestart defaultRestartTrackerConfig t4 ("a")
          (recordRestart defaultRestartTrackerConfig t3 ("a")
            (recordRestart defaultRestartTrackerConfig t2 ("a")
              (recordRestart defaultRestartTrackerConfig t1 ("a")
                (recordRestart defaultRestartTrackerConfig t0 ("a") []))))) ("a")
      = true ∧
    canRestart t4
        (recordRestart defaultRestartTrackerConfig t4 ("a")
          (recordRestart defaultRestartTrackerConfig t3 ("a")
            (recordRestart defaultRestartTrackerConfig t2 ("a")
              (recordRestart defaultRestartTrackerConfig t1 ("a")
                (recordRestart defaultRestartTrackerConfig t0 ("a") []))))) ("a")
      = false ∧
    canRestart t4
        (clearCrashLoop ("a")
          (recordRestart defaultRestartTrackerConfig t4 ("a")
            (recordRestart defaultRestartTrackerConfig t3 ("a")
              (recordRestart defaultRestartTrackerConfig t2 ("a")
                (recordRestart defaultRestartTrackerConfig t1 ("a")
                  (recordRestart defaultRestartTrackerConfig t0 ("a") [])))))) ("a")
      = true := by
  have hcb1 : computeBackoff defaultRestartTrackerConfig 1 = 30000000000 := by decide
  have hcb2 : computeBackoff defaultRestartTrackerConfig 2 = 60000000000 := by decide
  have hcb3 : computeBackoff defaultRestartTrackerConfig 3 = 120000000000 := by decide
  have hcb4 : computeBackoff defaultRestartTrackerConfig 4 = 240000000000 := by decide
  have hcb5 : computeBackoff defaultRestartTrackerConfig 5 = 480000000000 := by decide
  have hclc : defaultRestartTrackerConfig.crashLoopCount = 5 := rfl
  have hstabs : defaultRestartTrackerConfig.stabilityPeriod = 1800000000000 := rfl
  have e1 : recordRestart defaultRestartTrackerConfig t0 ("a") [] =
      [(("a" : String), ⟨t0, 1, t0 + 30000000000, 0⟩)] := by
    simp [recordRestart, lookupAgent, setAgent, AgentRestartInfo.zero, hcb1, hclc]
  have hns1 : ¬ (t0 ≠ 0 ∧ t1 - t0 > defaultRestartTrackerConfig.stabilityPeriod) := by
    rw [hstabs]; omega
  have e2 : recordRestart defaultRestartTrackerConfig t1 ("a")
      [(("a" : String), ⟨t0, 1, t0 + 30000000000, 0⟩)] =
      [(("a" : String), ⟨t1, 2, t1 + 60000000000, 0⟩)] := by
    simp [recordRestart, lookupAgent, setAgent, hns1, hcb2, hclc]
  have hns2 : ¬ (t1 ≠ 0 ∧ t2 - t1 > defaultRestartTrackerConfig.stabilityPeriod) := by
    rw [hstabs]; omega
  have e3 : recordRestart defaultRestartTrackerConfig t2 ("a")
      [(("a" : String), ⟨t1, 2, t1 + 60000000000, 0⟩)] =
      [(("a" : String), ⟨t2, 3, t2 + 120000000000, 0⟩)] := by
    simp [recordRestart, lookupAgent, setAgent, hns2, hcb3, hclc]
  have hns3 : ¬ (t2 ≠ 0 ∧ t3 - t2 > defaultRestartTrackerConfig.stabilityPeriod) := by
    rw [hstabs]; omega
  have e4 : recordRestart defaultRestartTrackerConfig t3 ("a")
      [(("a" : String), ⟨t2, 3, t2 + 120000000000, 0⟩)] =
      [(("a" : String), ⟨t3, 4, t3 + 240000000000, 0⟩)] := by
    simp [recordRestart, lookupAgent, setAgent, hns3, hcb4, hclc]
  have hns4 : ¬ (t3 ≠ 0 ∧ t4 - t3 > defaultRestartTrackerConfig.stabilityPeriod) := by
    rw [hstabs]; omega
  have hc5 : (5 ≥ defaultRestartTrackerConfig.crashLoopCount ∧
      t4 > t4 - defaultRestartTrackerConfig.crashLoopWindow) := by
    rw [hclc, show defaultRestartTrackerConfig.crashLoopWindow = 900000000000 from rfl]
    omega
  have e5 : recordRestart defaultRestartTrackerConfig t4 ("a")
      [(("a" : String), ⟨t3, 4, t3 + 240000000000, 0⟩)] =
      [(("a" : String), ⟨t4, 5, t4 + 480000000000, t4⟩)] := by
    simp [recordRestart, lookupAgent, setAgent, hns4, hcb5, hc5]
  rw [e1, e2, e3, e4, e5]
  refine ⟨?_, ?_, ?_, ?_⟩
  · simp [getBackoffRemaining, lookupAgent]
  · simp [isInCrashLoop, lookupAgent]
    omega
  · simp [canRestart, lookupAgent]
  · simp [clearCrashLoop, lookupAgent, setAgent, canRestart]
    omega

/-! ## Lemmas for the queue-metadata round trip (C3, C7) -/

theorem indexOfSub_cons (pat : List Char) (c : Char) (cs : List Char) :
    indexOfSub pat (c :: cs) =
      if pat.isPrefixOf (c :: cs) then some 0 else (indexOfSub pat cs).map (· + 1) := rfl

theorem indexOfSub_of_startsWith (pat s : List Char) (hne : pat ≠ [])
    (hp : pat <+: s) : indexOfSub pat s = some 0 := by
  cases s with
  | nil =>
    obtain ⟨t, ht⟩ := hp
    exact absurd (List.append_eq_nil.mp ht).1 hne
  | cons c cs =>
    unfold indexOfSub
    rw [if_pos (List.isPrefixOf_iff_prefix.mpr hp)]

theorem prefix_of_append_of_le (p a b : List Char) (h : p <+: a ++ b)
    (hl : p.length ≤ a.length) : p <+: a := by
  refine List.prefix_iff_eq_take.mpr ?_
  conv_lhs => rw [List.prefix_iff_eq_take.mp h]
  rw [List.take_append_eq_append_take, Nat.sub_eq_zero_of_le hl, List.take_zero,
    List.append_nil]

theorem left_prefix_of_prefix_append (p a b : List Char) (h : p <+: a ++ b)
    (hl : a.length ≤ p.length) : a <+: p := by
  refine List.prefix_iff_eq_take.mpr ?_
  conv_rhs => rw [List.prefix_iff_eq_take.mp h]
  rw [List.take_take, min_eq_left hl, List.take_left]

theorem mem_of_suffix_concat (l d : List Char) (x : Char)
    (h : l <:+ d ++ [x]) (hne : l ≠ []) : x ∈ l := by
  obtain ⟨t, ht⟩ := h
  rcases List.eq_nil_or_concat l with rfl | ⟨l', y, rfl⟩
  · exact absurd rfl hne
  · rw [List.concat_eq_append] at ht
    have h2 : ((t ++ l') ++ [y]).getLast? = (d ++ [x]).getLast? := by
      rw [List.append_assoc, ht]
    rw [List.getLast?_concat, List.getLast?_concat] at h2
    have hyx : y = x := by simpa using h2
    subst hyx
    simp [List.concat_eq_append]

theorem no_straddle (desc rest : List Char)
    (h1 : containsSub qmDelim desc = false)
    (h2 : desc = [] ∨ ∃ d', desc = d' ++ ['\n']) :
    ∀ d', d' <:+ desc → d' ≠ [] → ¬ (qmDelim <+: (d' ++ rest)) := by
  intro d' hs hne hpre
  by_cases hlen : qmDelim.length ≤ d'.length
  · -- the sentinel occurs inside desc
    have hd : qmDelim <+: d' := prefix_of_append_of_le _ _ _ hpre hlen
    obtain ⟨t, ht⟩ := hs
    obtain ⟨u, hu⟩ := hd
    have : containsSub qmDelim desc = true := by
      rw [containsSub_iff]
      exact ⟨t, u, by rw [← ht, ← hu]; simp⟩
    rw [h1] at this
    simp at this
  · -- a straddling occurrence would put a newline inside the sentinel
    push_neg at hlen
    have hd : d' <+: qmDelim := left_prefix_of_prefix_append _ _ _ hpre (le_of_lt hlen)
    rcases h2 with rfl | ⟨d0, rfl⟩
    · exact hne (List.suffix_nil.mp hs)
    · have hnl : '\n' ∈ d' := mem_of_suffix_concat d' d0 '\n' hs hne
      have : '\n' ∈ qmDelim := hd.subset hnl
      simp [qmDelim] at this

theorem indexOfSub_append_map (pat rest : List Char) :
    ∀ desc, (∀ d', d' <:+ desc → d' ≠ [] → ¬ (pat <+: (d' ++ rest))) →
      indexOfSub pat (desc ++ rest) = (indexOfSub pat rest).map (· + desc.length) := by
  intro desc
  induction desc with
  | nil =>
    intro _
    cases h : indexOfSub pat rest <;> simp [h]
  | cons c d ih =>
    intro h
    have hself : ¬ (pat.isPrefixOf (c :: (d ++ rest)) = true) := by
      intro hx
      exact h (c :: d) (List.suffix_refl _) (by simp)
        (List.isPrefixOf_iff_prefix.mp hx)
    rw [List.cons_append, indexOfSub_cons, if_neg hself,
      ih (fun d' hs hne => h d' (hs.trans (List.suffix_cons c d)) hne)]
    cases hr : indexOfSub pat rest with
    | none => simp
    | some i =>
      simp
      omega

theorem splitOnChar_not_mem (sep : Char) (l : List Char) (h : sep ∉ l) :
    splitOnChar sep l = [l] := by
  induction l with
  | nil => rfl
  | cons c cs ih =>
    have hc : ¬ (c = sep) := fun hx => h (hx ▸ List.mem_cons_self c cs)
    have ih' := ih (fun hx => h (List.mem_cons_of_mem c hx))
    unfold splitOnChar
    rw [if_neg hc, ih']

theorem splitOnChar_cons (sep c : Char) (cs : List Char) :
    splitOnChar sep (c :: cs) =
      if c = sep then [] :: splitOnChar sep cs
      else
        match splitOnChar sep cs with
        | [] => [[c]]
        | l :: ls => (c :: l) :: ls := rfl

theorem splitOnChar_append_sep (sep : Char) (l ys : List Char) (h : sep ∉ l) :
    splitOnChar sep (l ++ sep :: ys) = l :: splitOnChar sep ys := by
  induction l with
  | nil =>
    rw [List.nil_append, splitOnChar_cons, if_pos rfl]
  | cons c cs ih =>
    have hc : ¬ (c = sep) := fun hx => h (hx ▸ List.mem_cons_self c cs)
    have ih' := ih (fun hx => h (List.mem_cons_of_mem c hx))
    rw [List.cons_append, splitOnChar_cons, if_neg hc, ih']

theorem splitOnChar_joinSep (sep : Char) :
    ∀ L : List (List Char), L ≠ [] → (∀ l ∈ L, sep ∉ l) →
      splitOnChar sep (joinSep sep L) = L := by
  intro L
  induction L with
  | nil => intro h; exact absurd rfl h
  | cons l ls ih =>
    intro _ h
    cases ls with
    | nil =>
      show splitOnChar sep (joinSep sep [l]) = [l]
      exact splitOnChar_not_mem sep l (h l (List.mem_cons_self l []))
    | cons l2 ls2 =>
      show splitOnChar sep (l ++ sep :: joinSep sep (l2 :: ls2)) = l :: l2 :: ls2
      rw [splitOnChar_append_sep sep l _ (h l (List.mem_cons_self _ _))]
      rw [ih (by simp) (fun x hx => h x (List.mem_cons_of_mem l hx))]

theorem trimLeftSpace_length_le (l : List Char) :
    (trimLeftSpace l).length ≤ l.length := by
  induction l with
  | nil => simp [trimLeftSpace]
  | cons c cs ih =>
    unfold trimLeftSpace
    by_cases hc : isGoSpace c = true
    · rw [if_pos hc]
      simp only [List.length_cons]
      omega
    · rw [if_neg hc]

theorem trimLeftSpace_cons_of (c : Char) (l : List Char) (h : isGoSpace c = false) :
    trimLeftSpace (c :: l) = c :: l := by
  unfold trimLeftSpace
  rw [if_neg (by simp [h])]

theorem not_space_of_trimLeft_fix (c : Char) (l : List Char)
    (h : trimLeftSpace (c :: l) = c :: l) : isGoSpace c = false := by
  by_contra hx
  simp only [Bool.not_eq_false] at hx
  unfold trimLeftSpace at h
  rw [if_pos hx] at h
  have := trimLeftSpace_length_le l
  rw [h] at this
  simp at this

theorem trimLeftSpace_append (a b : List Char) (h : trimLeftSpace a = a)
    (hne : a ≠ []) : trimLeftSpace (a ++ b) = a ++ b := by
  cases a with
  | nil => exact absurd rfl hne
  | cons c cs =>
    rw [List.cons_append]
    exact trimLeftSpace_cons_of c (cs ++ b) (not_space_of_trimLeft_fix c cs h)

theorem trimRightSpace_append (a b : List Char) (h : trimRightSpace b = b)
    (hne : b ≠ []) : trimRightSpace (a ++ b) = a ++ b := by
  have hb : trimLeftSpace b.reverse = b.reverse := by
    have h2 := congrArg List.reverse h
    unfold trimRightSpace at h2
    rwa [List.reverse_reverse] at h2
  unfold trimRightSpace
  rw [List.reverse_append]
  rw [trimLeftSpace_append b.reverse a.reverse hb (by simpa using hne)]
  rw [List.reverse_append, List.reverse_reverse, List.reverse_reverse]

theorem trimSpace_kvLine (key val : List Char) (hk1 : key ≠ [])
    (hk2 : trimLeftSpace key = key) (hv1 : val ≠ [])
    (hv2 : trimRightSpace val = val) :
    trimSpace (kvLine key val) = kvLine key val := by
  unfold trimSpace kvLine
  have h1 : trimRightSpace (key ++ ':' :: ' ' :: val) = key ++ ':' :: ' ' :: val := by
    have := trimRightSpace_append (key ++ [':', ' ']) val hv2 hv1
    simpa using this
  rw [h1]
  exact trimLeftSpace_append key (':' :: ' ' :: val) hk2 hk1

theorem splitOnFirstSub_kvLine (key val : List Char) (hk : ':' ∉ key) :
    splitOnFirstSub colonSpace (kvLine key val) = some (key, val) := by
  induction key with
  | nil =>
    show splitOnFirstSub colonSpace (':' :: ' ' :: val) = some ([], val)
    unfold splitOnFirstSub
    rw [if_pos (by simp [colonSpace, List.isPrefixOf])]
    simp [colonSpace]
  | cons c cs ih =>
    have hc : ¬ (c = ':') := fun hx => hk (hx ▸ List.mem_cons_self c cs)
    have ih' := ih (fun hx => hk (List.mem_cons_of_mem c hx))
    show splitOnFirstSub colonSpace (c :: (cs ++ ':' :: ' ' :: val)) = _
    unfold splitOnFirstSub
    rw [if_neg (by
      simp only [colonSpace]
      intro hx
      rw [List.isPrefixOf_iff_prefix] at hx
      obtain ⟨t, ht⟩ := hx
      simp at ht
      exact hc ht.1.symm)]
    rw [show splitOnFirstSub colonSpace (cs ++ ':' :: ' ' :: val) = some (cs, val)
      from ih']
    rfl

theorem parseLines_cons (l : List Char) (ls : List (List Char)) (m : QueueMetadata) :
    parseLines (l :: ls) m =
      if trimSpace l = [] then parseLines ls m
      else if trimSpace l = qmDelim then m
      else
        match splitOnFirstSub colonSpace (trimSpace l) with
        | none => parseLines ls m
        | some kv => parseLines ls (assignKV (trimSpace kv.1) (trimSpace kv.2) m) := rfl

theorem parseLines_blank_cons (ls : List (List Char)) (m : QueueMetadata) :
    parseLines ([] :: ls) m = parseLines ls m := by
  rw [parseLines_cons, if_pos (show trimSpace [] = [] from rfl)]

theorem parseLines_delim_cons (ls : List (List Char)) (m : QueueMetadata) :
    parseLines (qmDelim :: ls) m = m := by
  rw [parseLines_cons, show trimSpace qmDelim = qmDelim from by decide,
    if_neg (by decide), if_pos rfl]

theorem kvLine_ne_nil (key val : List Char) : kvLine key val ≠ [] := by
  simp [kvLine]

theorem kvLine_ne_delim (key val : List Char) : kvLine key val ≠ qmDelim := by
  intro h
  have hm : ':' ∈ qmDelim := h ▸ (show ':' ∈ kvLine key val by simp [kvLine])
  exact absurd hm (by decide)

theorem parseLines_kv_cons (key val : List Char) (ls : List (List Char))
    (m : QueueMetadata) (hk1 : key ≠ []) (hk2 : trimLeftSpace key = key)
    (hk3 : trimSpace key = key) (hk4 : ':' ∉ key) (hv1 : val ≠ [])
    (hv2 : trimRightSpace val = val) (hv3 : trimLeftSpace val = val) :
    parseLines (kvLine key val :: ls) m = parseLines ls (assignKV key val m) := by
  have htv : trimSpace val = val := by
    unfold trimSpace
    rw [hv2, hv3]
  rw [parseLines_cons, trimSpace_kvLine key val hk1 hk2 hv1 hv2,
    if_neg (kvLine_ne_nil key val), if_neg (kvLine_ne_delim key val),
    splitOnFirstSub_kvLine key val hk4]
  show parseLines ls (assignKV (trimSpace key) (trimSpace val) m) =
    parseLines ls (assignKV key val m)
  rw [hk3, htv]

/-- Processing one optional string-field line: the accumulator picks up the
field value (`upd`), whether the field is set or not. -/
theorem parseLines_strSeg (key v : List Char) (rest : List (List Char))
    (acc upd : QueueMetadata) (hkey : KeyGood key) (hv : CleanField v)
    (hset : v ≠ [] → assignKV key v acc = upd) (hnil : v = [] → acc = upd) :
    parseLines ((if v = [] then [] else [kvLine key v]) ++ rest) acc =
      parseLines rest upd := by
  by_cases hv0 : v = []
  · rw [if_pos hv0, List.nil_append, ← hnil hv0]
  · rcases hv with h | ⟨_, hlt, hrt⟩
    · exact absurd h hv0
    rw [if_neg hv0, List.singleton_append,
      parseLines_kv_cons key v rest acc hkey.1 hkey.2.1 hkey.2.2.1 hkey.2.2.2.1
        hv0 hrt hlt,
      hset hv0]

/-- Processing one optional boolean-field line. -/
theorem parseLines_boolSeg (key : List Char) (b : Bool) (rest : List (List Char))
    (acc upd : QueueMetadata) (hkey : KeyGood key)
    (hT : b = true → assignKV key trueLit acc = upd)
    (hF : b = false → acc = upd) :
    parseLines ((if b then [kvLine key trueLit] else []) ++ rest) acc =
      parseLines rest upd := by
  cases b with
  | false =>
    rw [if_neg (by simp), List.nil_append, ← hF rfl]
  | true =>
    rw [if_pos rfl, List.singleton_append,
      parseLines_kv_cons key trueLit rest acc hkey.1 hkey.2.1 hkey.2.2.1 hkey.2.2.2.1
        (by decide) (by decide) (by decide),
      hT rfl]

/-- Running the parser's line loop over the formatted key-value lines of a
clean `m` (followed by any remaining lines `r`) reconstructs exactly `m`. -/
theorem parseLines_kvLines_gen (m : QueueMetadata) (hm : CleanQM m)
    (r : List (List Char)) :
    parseLines (kvLines m ++ r) QueueMetadata.blank = parseLines r m := by
  obtain ⟨h1, h2, h3, h4, h5, h6, h7, h8, h9, h10⟩ := hm
  unfold kvLines
  simp only [List.append_assoc]
  rw [parseLines_strSeg kTargetRig m.targetRig _
    QueueMetadata.blank
    ⟨m.targetRig, [], [], [], [], [], [], [], false, [], [], false, false, false⟩
    (by decide) h1 (fun _ => rfl) (fun h => by rw [h]; rfl)]
  rw [parseLines_strSeg kFormula m.formula _
    ⟨m.targetRig, [], [], [], [], [], [], [], false, [], [], false, false, false⟩
    ⟨m.targetRig, m.formula, [], [], [], [], [], [], false, [], [], false, false, false⟩
    (by decide) h2 (fun _ => rfl) (fun h => by rw [h])]
  rw [parseLines_strSeg kArgs m.args _
    ⟨m.targetRig, m.formula, [], [], [], [], [], [], false, [], [], false, false, false⟩
    ⟨m.targetRig, m.formula, m.args, [], [], [], [], [], false, [], [], false, false, false⟩
    (by decide) h3 (fun _ => rfl) (fun h => by rw [h])]
  rw [parseLines_strSeg kVars m.vars _
    ⟨m.targetRig, m.formula, m.args, [], [], [], [], [], false, [], [], false, false, false⟩
    ⟨m.targetRig, m.formula, m.args, m.vars, [], [], [], [], false, [], [], false, false, false⟩
    (by decide) h4 (fun _ => rfl) (fun h => by rw [h])]
  rw [parseLines_strSeg kEnqueuedAt m.enqueuedAt _
    ⟨m.targetRig, m.formula, m.args, m.vars, [], [], [], [], false, [], [], false, false, false⟩
    ⟨m.targetRig, m.formula, m.args, m.vars, m.enqueuedAt, [], [], [], false, [], [], false, false, false⟩
    (by decide) h5 (fun _ => rfl) (fun h => by rw [h])]
  rw [parseLines_strSeg kMerge m.merge _
    ⟨m.targetRig, m.formula, m.args, m.vars, m.enqueuedAt, [], [], [], false, [], [], false, false, false⟩
    ⟨m.targetRig, m.formula, m.args, m.vars, m.enqueuedAt, m.merge, [], [], false, [], [], false, false, false⟩
    (by decide) h6 (fun _ => rfl) (fun h => by rw [h])]
  rw [parseLines_strSeg kConvoy m.convoy _
    ⟨m.targetRig, m.formula, m.args, m.vars, m.enqueuedAt, m.merge, [], [], false, [], [], false, false, false⟩
    ⟨m.targetRig, m.formula, m.args, m.vars, m.enqueuedAt, m.merge, m.convoy, [], false, [], [], false, false, false⟩
    (by decide) h7 (fun _ => rfl) (fun h => by rw [h])]
  rw [parseLines_strSeg kBaseBranch m.baseBranch _
    ⟨m.targetRig, m.formula, m.args, m.vars, m.enqueuedAt, m.merge, m.convoy, [], false, [], [], false, false, false⟩
    ⟨m.targetRig, m.formula, m.args, m.vars, m.enqueuedAt, m.merge, m.convoy, m.baseBranch, false, [], [], false, false, false⟩
    (by decide) h8 (fun _ => rfl) (fun h => by rw [h])]
  rw [parseLines_boolSeg kNoMerge m.noMerge _
    ⟨m.targetRig, m.formula, m.args, m.vars, m.enqueuedAt, m.merge, m.convoy, m.baseBranch, false, [], [], false, false, false⟩
    ⟨m.targetRig, m.formula, m.args, m.vars, m.enqueuedAt, m.merge, m.convoy, m.baseBranch, m.noMerge, [], [], false, false, false⟩
    (by decide) (fun h => by rw [h]; rfl) (fun h => by rw [h])]
  rw [parseLines_strSeg kAccount m.account _
    ⟨m.targetRig, m.formula, m.args, m.vars, m.enqueuedAt, m.merge, m.convoy, m.baseBranch, m.noMerge, [], [], false, false, false⟩
    ⟨m.targetRig, m.formula, m.args, m.vars, m.enqueuedAt, m.merge, m.convoy, m.baseBranch, m.noMerge, m.account, [], false, false, false⟩
    (by decide) h9 (fun _ => rfl) (fun h => by rw [h])]
  rw [parseLines_strSeg kAgent m.agent _
    ⟨m.targetRig, m.formula, m.args, m.vars, m.enqueuedAt, m.merge, m.convoy, m.baseBranch, m.noMerge, m.account, [], false, false, false⟩
    ⟨m.targetRig, m.formula, m.args, m.vars, m.enqueuedAt, m.merge, m.convoy, m.baseBranch, m.noMerge, m.account, m.agent, false, false, false⟩
    (by decide) h10 (fun _ => rfl) (fun h => by rw [h])]
  rw [parseLines_boolSeg kHookRawBead m.hookRawBead _
    ⟨m.targetRig, m.formula, m.args, m.vars, m.enqueuedAt, m.merge, m.convoy, m.baseBranch, m.noMerge, m.account, m.agent, false, false, false⟩
    ⟨m.targetRig, m.formula, m.args, m.vars, m.enqueuedAt, m.merge, m.convoy, m.baseBranch, m.noMerge, m.account, m.agent, m.hookRawBead, false, false⟩
    (by decide) (fun h => by rw [h]; rfl) (fun h => by rw [h])]
  rw [parseLines_boolSeg kNoBoot m.noBoot _
    ⟨m.targetRig, m.formula, m.args, m.vars, m.enqueuedAt, m.merge, m.convoy, m.baseBranch, m.noMerge, m.account, m.agent, m.hookRawBead, false, false⟩
    ⟨m.targetRig, m.formula, m.args, m.vars, m.enqueuedAt, m.merge, m.convoy, m.baseBranch, m.noMerge, m.account, m.agent, m.hookRawBead, m.noBoot, false⟩
    (by decide) (fun h => by rw [h]; rfl) (fun h => by rw [h])]
  rw [parseLines_boolSeg kOwned m.owned _
    ⟨m.targetRig, m.formula, m.args, m.vars, m.enqueuedAt, m.merge, m.convoy, m.baseBranch, m.noMerge, m.account, m.agent, m.hookRawBead, m.noBoot, false⟩
    ⟨m.targetRig, m.formula, m.args, m.vars, m.enqueuedAt, m.merge, m.convoy, m.baseBranch, m.noMerge, m.account, m.agent, m.hookRawBead, m.noBoot, m.owned⟩
    (by decide) (fun h => by rw [h]; rfl) (fun h => by rw [h])]

theorem no_nl_strSeg (key v l : List Char) (hkey : '\n' ∉ key) (hv : CleanField v)
    (h : l ∈ if v = [] then ([] : List (List Char)) else [kvLine key v]) :
    '\n' ∉ l := by
  by_cases hv0 : v = []
  · rw [if_pos hv0] at h
    simp at h
  · rw [if_neg hv0] at h
    simp only [List.mem_singleton] at h
    subst h
    rcases hv with h | ⟨hnl, _, _⟩
    · exact absurd h hv0
    · intro hx
      simp only [kvLine, List.mem_append, List.mem_cons] at hx
      rcases hx with hx | hx | hx | hx
      · exact hkey hx
      · exact absurd hx (by decide)
      · exact absurd hx (by decide)
      · exact hnl hx

theorem no_nl_boolSeg (key : List Char) (b : Bool) (l : List Char)
    (hkey : '\n' ∉ key)
    (h : l ∈ if b then [kvLine key trueLit] else ([] : List (List Char))) :
    '\n' ∉ l := by
  cases b with
  | false => simp at h
  | true =>
    rw [if_pos rfl] at h
    simp only [List.mem_singleton] at h
    subst h
    intro hx
    simp only [kvLine, List.mem_append, List.mem_cons] at hx
    rcases hx with hx | hx | hx | hx
    · exact hkey hx
    · exact absurd hx (by decide)
    · exact absurd hx (by decide)
    · exact absurd hx (by decide)

theorem kvLines_no_nl (m : QueueMetadata) (hm : CleanQM m) :
    ∀ l ∈ kvLines m, '\n' ∉ l := by
  obtain ⟨h1, h2, h3, h4, h5, h6, h7, h8, h9, h10⟩ := hm
  intro l hl
  unfold kvLines at hl
  simp only [List.mem_append] at hl
  rcases hl with
    ((((((((((((hl | hl) | hl) | hl) | hl) | hl) | hl) | hl) | hl) | hl) | hl)
      | hl) | hl) | hl
  · exact no_nl_strSeg kTargetRig m.targetRig l (by decide) h1 hl
  · exact no_nl_strSeg kFormula m.formula l (by decide) h2 hl
  · exact no_nl_strSeg kArgs m.args l (by decide) h3 hl
  · exact no_nl_strSeg kVars m.vars l (by decide) h4 hl
  · exact no_nl_strSeg kEnqueuedAt m.enqueuedAt l (by decide) h5 hl
  · exact no_nl_strSeg kMerge m.merge l (by decide) h6 hl
  · exact no_nl_strSeg kConvoy m.convoy l (by decide) h7 hl
  · exact no_nl_strSeg kBaseBranch m.baseBranch l (by decide) h8 hl
  · exact no_nl_boolSeg kNoMerge m.noMerge l (by decide) hl
  · exact no_nl_strSeg kAccount m.account l (by decide) h9 hl
  · exact no_nl_strSeg kAgent m.agent l (by decide) h10 hl
  · exact no_nl_boolSeg kHookRawBead m.hookRawBead l (by decide) hl
  · exact no_nl_boolSeg kNoBoot m.noBoot l (by decide) hl
  · exact no_nl_boolSeg kOwned m.owned l (by decide) hl

theorem strSeg_nil (key v : List Char)
    (h : (if v = [] then ([] : List (List Char)) else [kvLine key v]) = []) :
    v = [] := by
  by_cases hv : v = []
  · exact hv
  · rw [if_neg hv] at h
    simp at h

theorem boolSeg_nil (key : List Char) (b : Bool)
    (h : (if b then [kvLine key trueLit] else ([] : List (List Char))) = []) :
    b = false := by
  cases b with
  | false => rfl
  | true =>
    rw [if_pos rfl] at h
    simp at h

theorem eq_blank_of_kvLines_nil (m : QueueMetadata) (h : kvLines m = []) :
    m = QueueMetadata.blank := by
  cases m with
  | mk tr fo ar va en me co bb nm ac ag hr nb ow =>
    unfold kvLines at h
    simp only [List.append_eq_nil] at h
    obtain ⟨⟨⟨⟨⟨⟨⟨⟨⟨⟨⟨⟨⟨e1, e2⟩, e3⟩, e4⟩, e5⟩, e6⟩, e7⟩, e8⟩, e9⟩, e10⟩, e11⟩,
      e12⟩, e13⟩, e14⟩ := h
    have v1 := strSeg_nil _ _ e1
    have v2 := strSeg_nil _ _ e2
    have v3 := strSeg_nil _ _ e3
    have v4 := strSeg_nil _ _ e4
    have v5 := strSeg_nil _ _ e5
    have v6 := strSeg_nil _ _ e6
    have v7 := strSeg_nil _ _ e7
    have v8 := strSeg_nil _ _ e8
    have v9 := boolSeg_nil _ _ e9
    have v10 := strSeg_nil _ _ e10
    have v11 := strSeg_nil _ _ e11
    have v12 := boolSeg_nil _ _ e12
    have v13 := boolSeg_nil _ _ e13
    have v14 := boolSeg_nil _ _ e14
    simp only at v1 v2 v3 v4 v5 v6 v7 v8 v9 v10 v11 v12 v13 v14
    subst v1; subst v2; subst v3; subst v4; subst v5; subst v6; subst v7
    subst v8; subst v9; subst v10; subst v11; subst v12; subst v13; subst v14
    rfl

theorem formatQueueMetadata_of_nil (m : QueueMetadata) (h : kvLines m = []) :
    formatQueueMetadata m = qmDelim := by
  unfold formatQueueMetadata
  rw [h]
  rfl

theorem formatQueueMetadata_of_cons (m : QueueMetadata) (l : List Char)
    (ls : List (List Char)) (h : kvLines m = l :: ls) :
    formatQueueMetadata m = qmDelim ++ '\n' :: joinSep '\n' (kvLines m) := by
  unfold formatQueueMetadata
  rw [h]
  rfl

theorem qmDelim_prefix_format (m : QueueMetadata) :
    qmDelim <+: formatQueueMetadata m := by
  cases hkv : kvLines m with
  | nil =>
    rw [formatQueueMetadata_of_nil m hkv]
  | cons l ls =>
    rw [formatQueueMetadata_of_cons m l ls hkv]
    exact List.prefix_append _ _

theorem indexOfSub_desc_format (desc : List Char) (m : QueueMetadata)
    (h1 : containsSub qmDelim desc = false)
    (h2 : desc = [] ∨ ∃ d', desc = d' ++ ['\n']) :
    indexOfSub qmDelim (desc ++ formatQueueMetadata m) = some desc.length := by
  rw [indexOfSub_append_map qmDelim (formatQueueMetadata m) desc
    (no_straddle desc (formatQueueMetadata m) h1 h2)]
  rw [indexOfSub_of_startsWith _ _ (by decide) (qmDelim_prefix_format m)]
  simp

theorem parse_format (desc : List Char) (m : QueueMetadata)
    (h1 : containsSub qmDelim desc = false)
    (h2 : desc = [] ∨ ∃ d', desc = d' ++ ['\n']) (hm : CleanQM m) :
    parseQueueMetadata (desc ++ formatQueueMetadata m) = some m := by
  unfold parseQueueMetadata
  rw [indexOfSub_desc_format desc m h1 h2]
  show some (parseLines (splitOnChar '\n'
      ((desc ++ formatQueueMetadata m).drop (desc.length + qmDelim.length)))
      QueueMetadata.blank) = some m
  have hdrop : (desc ++ formatQueueMetadata m).drop (desc.length + qmDelim.length)
      = (formatQueueMetadata m).drop qmDelim.length := by
    rw [List.drop_append]
  rw [hdrop]
  cases hkv : kvLines m with
  | nil =>
    rw [formatQueueMetadata_of_nil m hkv]
    rw [show qmDelim.drop qmDelim.length = [] from by simp]
    rw [show splitOnChar '\n' ([] : List Char) = [[]] from rfl]
    rw [parseLines_blank_cons]
    rw [show parseLines [] QueueMetadata.blank = QueueMetadata.blank from rfl]
    rw [eq_blank_of_kvLines_nil m hkv]
  | cons l ls =>
    rw [formatQueueMetadata_of_cons m l ls hkv]
    rw [show (qmDelim ++ '\n' :: joinSep '\n' (kvLines m)).drop qmDelim.length
        = '\n' :: joinSep '\n' (kvLines m) from by rw [List.drop_left]]
    rw [splitOnChar_cons, if_pos rfl]
    rw [splitOnChar_joinSep '\n' (kvLines m) (by rw [hkv]; simp) (kvLines_no_nl m hm)]
    rw [parseLines_blank_cons]
    have hgen := parseLines_kvLines_gen m hm []
    rw [List.append_nil] at hgen
    rw [hgen]
    rfl

theorem strip_format (desc : List Char) (m : QueueMetadata)
    (h1 : containsSub qmDelim desc = false)
    (h2 : desc = [] ∨ ∃ d', desc = d' ++ ['\n']) :
    stripQueueMetadata (desc ++ formatQueueMetadata m) = trimRightNL desc := by
  unfold stripQueueMetadata
  rw [indexOfSub_desc_format desc m h1 h2]
  show trimRightNL ((desc ++ formatQueueMetadata m).take desc.length) = trimRightNL desc
  rw [List.take_left]

/-! ## C3 — queue-metadata round trip -/

/-- C3, counterexample: for a description that itself contains the
`---queue---` sentinel, the round trip fails — `ParseQueueMetadata` latches
onto the description's own sentinel (picking up `convoy: evil`) and
`StripQueueMetadata` cuts the description at it. So the claimed law does
not hold for every description. -/
theorem C3_roundtrip_counterexample :
    ¬ (parseQueueMetadata ((("---queue---\nconvoy: evil\n").toList) ++
          formatQueueMetadata QueueMetadata.blank) = some QueueMetadata.blank ∧
        stripQueueMetadata ((("---queue---\nconvoy: evil\n").toList) ++
          formatQueueMetadata QueueMetadata.blank) =
          trimRightNL (("---queue---\nconvoy: evil\n").toList)) := by
  decide

/-- C3, amended: for every `QueueMetadata` whose set string fields are
newline-free and unchanged by whitespace trimming, and every description
that contains no `---queue---` sentinel and is empty or newline-terminated,
`ParseQueueMetadata (desc ++ FormatQueueMetadata m)` returns exactly `m`
(every combination of set and unset fields), and
`StripQueueMetadata (desc ++ FormatQueueMetadata m)` returns `desc` with
trailing newlines trimmed. -/
theorem C3_roundtrip_amended (desc : List Char) (m : QueueMetadata)
    (h1 : containsSub qmDelim desc = false)
    (h2 : desc = [] ∨ ∃ d', desc = d' ++ ['\n'])
    (hm : CleanQM m) :
    parseQueueMetadata (desc ++ formatQueueMetadata m) = some m ∧
    stripQueueMetadata (desc ++ formatQueueMetadata m) = trimRightNL desc :=
  ⟨parse_format desc m h1 h2 hm, strip_format desc m h1 h2⟩

/-- C3 witness: a concrete description and a metadata value with a mix of
set and unset string and boolean fields round-trips exactly. -/
theorem C3_roundtrip_witness :
    parseQueueMetadata ((("Fix the flux capacitor\n").toList) ++
        formatQueueMetadata
          ⟨("beads").toList, ("mol-polish").toList, [], [],
            ("2026-02-05T12:00:00Z").toList, ("mr").toList, ("hq-cv-ab3de").toList,
            [], true, [], [], false, true, false⟩) =
      some
        ⟨("beads").toList, ("mol-polish").toList, [], [],
          ("2026-02-05T12:00:00Z").toList, ("mr").toList, ("hq-cv-ab3de").toList,
          [], true, [], [], false, true, false⟩ ∧
    stripQueueMetadata ((("Fix the flux capacitor\n").toList) ++
        formatQueueMetadata
          ⟨("beads").toList, ("mol-polish").toList, [], [],
            ("2026-02-05T12:00:00Z").toList, ("mr").toList, ("hq-cv-ab3de").toList,
            [], true, [], [], false, true, false⟩) =
      trimRightNL (("Fix the flux capacitor\n").toList) :=
  C3_roundtrip_amended (("Fix the flux capacitor\n").toList) _ (by decide)
    (Or.inr ⟨("Fix the flux capacitor").toList, by decide⟩) (by decide)

/-! ## C7 — parser behavior at blank lines -/

/-- C7, counterexample: a key-value line separated from the sentinel by a
blank line DOES contribute to the parsed result — the parser skips blank
lines instead of stopping at the first one. -/
theorem C7_blank_line_counterexample :
    parseQueueMetadata (("---queue---\n\ntarget_rig: r").toList) =
      some { QueueMetadata.blank with targetRig := ("r").toList } ∧
    parseQueueMetadata (("---queue---\n\ntarget_rig: r").toList) ≠
      some QueueMetadata.blank := by
  decide

/-- C7, amended: `ParseQueueMetadata` locates the first sentinel and then
reads `key: value` lines, skipping blank lines and lines without `": "`
(tolerating unknown keys), stopping only at a second sentinel; a key-value
line after a blank line following the sentinel still contributes. -/
theorem C7_parser_skips_blank_lines (ls : List (List Char)) (acc : QueueMetadata)
    (v : List Char) (hv1 : v ≠ []) (hv2 : '\n' ∉ v) (hv3 : trimLeftSpace v = v)
    (hv4 : trimRightSpace v = v) :
    parseLines ([] :: ls) acc = parseLines ls acc ∧
    parseLines (qmDelim :: ls) acc = acc ∧
    parseQueueMetadata (qmDelim ++ '\n' :: '\n' :: kvLine kTargetRig v) =
      some { QueueMetadata.blank with targetRig := v } := by
  refine ⟨parseLines_blank_cons ls acc, parseLines_delim_cons ls acc, ?_⟩
  unfold parseQueueMetadata
  rw [indexOfSub_of_startsWith qmDelim _ (by decide) (List.prefix_append _ _)]
  show some (parseLines (splitOnChar '\n'
      ((qmDelim ++ '\n' :: '\n' :: kvLine kTargetRig v).drop (0 + qmDelim.length)))
      QueueMetadata.blank) = _
  rw [Nat.zero_add, List.drop_left]
  rw [splitOnChar_cons, if_pos rfl, splitOnChar_cons, if_pos rfl]
  rw [splitOnChar_not_mem '\n' (kvLine kTargetRig v) (by
    intro hx
    simp only [kvLine, List.mem_append, List.mem_cons] at hx
    rcases hx with hx | hx | hx | hx
    · exact absurd hx (by decide)
    · exact absurd hx (by decide)
    · exact absurd hx (by decide)
    · exact hv2 hx)]
  rw [parseLines_blank_cons, parseLines_blank_cons]
  rw [parseLines_kv_cons kTargetRig v [] QueueMetadata.blank (by decide) (by decide)
    (by decide) (by decide) hv1 hv4 hv3]
  rfl

/-- C7 witness: the amended behavior at a concrete value. -/
theorem C7_parser_skips_blank_lines_witness :
    parseLines ([] :: [qmDelim]) QueueMetadata.blank =
      parseLines [qmDelim] QueueMetadata.blank ∧
    parseLines (qmDelim :: [qmDelim]) QueueMetadata.blank = QueueMetadata.blank ∧
    parseQueueMetadata (qmDelim ++ '\n' :: '\n' :: kvLine kTargetRig (("r").toList)) =
      some { QueueMetadata.blank with targetRig := ("r").toList } :=
  C7_parser_skips_blank_lines [qmDelim] QueueMetadata.blank (("r").toList)
    (by decide) (by decide) (by decide) (by decide)

/-- C2 witness: the scenario at the concrete instants 1 ns .. 5 ns. -/
theorem C2_restart_scenario_witness :
    getBackoffRemaining 2
        (recordRestart defaultRestartTrackerConfig 2 ("a")
          (recordRestart defaultRestartTrackerConfig 1 ("a") [])) ("a") > 0 ∧
    isInCrashLoop
        (recordRestart defaultRestartTrackerConfig 5 ("a")
          (recordRestart defaultRestartTrackerConfig 4 ("a")
            (recordRestart defaultRestartTrackerConfig 3 ("a")
              (recordRestart defaultRestartTrackerConfig 2 ("a")
                (recordRestart defaultRestartTrackerConfig 1 ("a") []))))) ("a")
      = true ∧
    canRestart 5
        (recordRestart defaultRestartTrackerConfig 5 ("a")
          (recordRestart defaultRestartTrackerConfig 4 ("a")
            (recordRestart defaultRestartTrackerConfig 3 ("a")
              (recordRestart defaultRestartTrackerConfig 2 ("a")
                (recordRestart defaultRestartTrackerConfig 1 ("a") []))))) ("a")
      = false ∧
    canRestart 5
        (clearCrashLoop ("a")
          (recordRestart defaultRestartTrackerConfig 5 ("a")
            (recordRestart defaultRestartTrackerConfig 4 ("a")
              (recordRestart defaultRestartTrackerConfig 3 ("a")
                (recordRestart defaultRestartTrackerConfig 2 ("a")
                  (recordRestart defaultRestartTrackerConfig 1 ("a") [])))))) ("a")
      = true :=
  C2_restart_scenario 1 2 3 4 5 (by decide) (by decide) (by decide) (by decide)
    (by decide) (by decide)

end Gastown
